import Mathlib

/-!
# Verification of the `wasmtime-http` CLI host

A shallow embedding of `src/bin/wasmtime-http.rs` (and, where the behaviour
lives outside this repository, definitions modelled from the specification).
The embedding covers:

* the wasm value model (`ValType`, `Val`) as used by the host;
* Rust's standard decimal parsing for `i32`/`i64`/`u32`/`u64`
  (`str::parse`), used by argument coercion;
* the argument-coercion loop and result rendering of `invoke_func`;
* the export lookup and panic behaviour of `main`;
* the fallible setup sequence of `create_instance`, with the effects it
  performs made explicit as a trace;
* `parse_env_var`;
* IEEE-754 decoding of `f32::from_bits` / `f64::from_bits` into exact
  rational values, used by result rendering.
-/

namespace WasmtimeHttp

/-- Wasm value kinds, mirroring `wasmtime::ValType`. -/
inductive ValType where
  | I32
  | I64
  | F32
  | F64
  | V128
  | ExternRef
  | FuncRef
deriving DecidableEq, Repr

/-- Wasm values, mirroring `wasmtime::Val`.  Integer payloads are the signed
values of the `i32`/`i64`; float payloads are the raw bit patterns (`u32`/
`u64`), as in wasmtime, where `Val::F32`/`Val::F64` store bits.  Reference
payloads are opaque to the host and therefore omitted. -/
inductive Val where
  | I32 (n : Int)
  | I64 (n : Int)
  | F32 (bits : Nat)
  | F64 (bits : Nat)
  | V128 (n : Nat)
  | ExternRef
  | FuncRef
deriving DecidableEq, Repr

/-- Errors surfaced by `invoke_func` (and, for traps, by the guest call
itself).  `notEnoughArguments` is the `bail!("not enough arguments for
invocation")` branch; `argumentParse` is a failed `val.parse()?`;
`unsupportedParameterType` is the `bail!("unsupported argument type ...")`
branch; `guestTrap` stands for any error propagated out of `call_async`. -/
inductive InvokeError where
  | notEnoughArguments
  | argumentParse (token : String)
  | unsupportedParameterType (t : ValType)
  | guestTrap
deriving DecidableEq, Repr

/-- The diagnostic text attached to each `invoke_func` error, as written in
the `bail!` calls of the source. -/
def InvokeError.message : InvokeError → String
  | .notEnoughArguments => "not enough arguments for invocation"
  | .argumentParse tok => "invalid digit found in string: " ++ tok
  | .unsupportedParameterType _ => "unsupported argument type"
  | .guestTrap => "guest trap"

/-- The numeric value of a list of decimal digit characters
(most-significant first), as accumulated by Rust's `from_str_radix`. -/
def digitsToNat (cs : List Char) : Nat :=
  cs.foldl (fun a c => a * 10 + (c.toNat - 48)) 0

/-- Parse a non-empty, all-decimal-digit character list into a `Nat`;
`none` otherwise.  This is the digit-consuming core of Rust's
`from_str_radix` (radix 10), before any overflow check. -/
def parseDigits (cs : List Char) : Option Nat :=
  if cs ≠ [] ∧ cs.all Char.isDigit then some (digitsToNat cs) else none

/-- Rust's `str::parse::<uN>()` for an unsigned integer type whose values
are `0 ≤ v < bound`: an optional leading `+`, then one or more decimal
digits, with overflow (`v ≥ bound`) rejected.  A leading `-` is rejected
for unsigned types. -/
def parseUnsigned (s : String) (bound : Nat) : Option Nat :=
  let cs := match s.data with
    | '+' :: rest => rest
    | cs => cs
  match parseDigits cs with
  | some n => if n < bound then some n else none
  | none => none

/-- Rust's `str::parse::<iN>()` for a signed integer type whose values are
`-bound ≤ v < bound` (with `bound = 2^(N-1)`): an optional leading `+` or
`-`, then one or more decimal digits, with overflow rejected.  Note that
`-bound` itself is representable while `bound` is not. -/
def parseSigned (s : String) (bound : Nat) : Option Int :=
  match s.data with
  | '-' :: rest =>
    match parseDigits rest with
    | some n => if n ≤ bound then some (-(n : Int)) else none
    | none => none
  | '+' :: rest =>
    match parseDigits rest with
    | some n => if n < bound then some (n : Int) else none
    | none => none
  | cs =>
    match parseDigits cs with
    | some n => if n < bound then some (n : Int) else none
    | none => none

/-- One arm of the coercion `match ty` in `invoke_func`: coerce a single
token for a single declared parameter kind.  `I32`/`I64` use Rust's signed
decimal parse, `F32`/`F64` parse the token as a `u32`/`u64` *bit pattern*
(`Val::F32(val.parse()?)` — the `F32` payload is `u32`), and every other
kind takes the `bail!("unsupported argument type ...")` arm. -/
def coerceVal (ty : ValType) (s : String) : Except InvokeError Val :=
  match ty with
  | .I32 =>
    match parseSigned s (2 ^ 31) with
    | some n => .ok (.I32 n)
    | none => .error (.argumentParse s)
  | .I64 =>
    match parseSigned s (2 ^ 63) with
    | some n => .ok (.I64 n)
    | none => .error (.argumentParse s)
  | .F32 =>
    match parseUnsigned s (2 ^ 32) with
    | some n => .ok (.F32 n)
    | none => .error (.argumentParse s)
  | .F64 =>
    match parseUnsigned s (2 ^ 64) with
    | some n => .ok (.F64 n)
    | none => .error (.argumentParse s)
  | t => .error (.unsupportedParameterType t)

/-- `true` iff the token coerces for the given declared kind (kind is one of
the four numeric kinds and the token parses for it). -/
def tokenOk (ty : ValType) (s : String) : Bool :=
  match coerceVal ty s with
  | .ok _ => true
  | .error _ => false

/-- The argument-coercion loop of `invoke_func`: walk the declared
parameter list, drawing one token per parameter from the argument iterator.
An exhausted iterator is `bail!("not enough arguments for invocation")`;
tokens left over after the last parameter are simply never drawn. -/
def coerceArgs : List ValType → List String → Except InvokeError (List Val)
  | [], _ => .ok []
  | _ :: _, [] => .error .notEnoughArguments
  | t :: ts, a :: rest =>
    match coerceVal t a with
    | .error e => .error e
    | .ok v =>
      match coerceArgs ts rest with
      | .error e => .error e
      | .ok vs => .ok (v :: vs)

/-- The value denoted by an IEEE-754 bit pattern: an exact rational for
finite values, or an infinity or NaN. -/
inductive IEEEVal where
  | finite (q : ℚ)
  | inf (negative : Bool)
  | nan
deriving DecidableEq, Repr

/-- IEEE-754 binary32 decoding, the semantics of Rust's `f32::from_bits`:
split the 32-bit pattern into sign (1 bit), biased exponent (8 bits) and
fraction (23 bits) and return the exact value denoted. -/
def f32_from_bits (b : Nat) : IEEEVal :=
  let sign : Nat := b / 2 ^ 31 % 2
  let expo : Nat := b / 2 ^ 23 % 2 ^ 8
  let frac : Nat := b % 2 ^ 23
  if expo = 255 then
    if frac = 0 then .inf (sign = 1) else .nan
  else
    let mag : ℚ :=
      if expo = 0 then (frac : ℚ) / 2 ^ 149
      else ((2 ^ 23 + frac : Nat) : ℚ) * 2 ^ expo / 2 ^ 150
    .finite (if sign = 1 then -mag else mag)

/-- IEEE-754 binary64 decoding, the semantics of Rust's `f64::from_bits`:
sign (1 bit), biased exponent (11 bits), fraction (52 bits). -/
def f64_from_bits (b : Nat) : IEEEVal :=
  let sign : Nat := b / 2 ^ 63 % 2
  let expo : Nat := b / 2 ^ 52 % 2 ^ 11
  let frac : Nat := b % 2 ^ 52
  if expo = 2047 then
    if frac = 0 then .inf (sign = 1) else .nan
  else
    let mag : ℚ :=
      if expo = 0 then (frac : ℚ) / 2 ^ 1074
      else ((2 ^ 52 + frac : Nat) : ℚ) * 2 ^ expo / 2 ^ 1075
    .finite (if sign = 1 then -mag else mag)

/-- What one `println!` line of the result loop shows: either a decimal
integer (`Val::I32`/`I64`, printed via `{}`), the IEEE value obtained by
reinterpreting a stored float bit pattern (`f32::from_bits`/
`f64::from_bits`), a fixed placeholder for a reference, or the decimal of a
128-bit vector's integer payload. -/
inductive Rendered where
  | decimalInt (i : Int)
  | ieeeFloat (v : IEEEVal)
  | externrefPlaceholder
  | funcrefPlaceholder
  | decimalNat (n : Nat)
deriving DecidableEq, Repr

/-- Render one returned value as one output line, mirroring the
`match result` in `invoke_func`'s result loop. -/
def renderVal : Val → Rendered
  | .I32 i => .decimalInt i
  | .I64 i => .decimalInt i
  | .F32 f => .ieeeFloat (f32_from_bits f)
  | .F64 f => .ieeeFloat (f64_from_bits f)
  | .ExternRef => .externrefPlaceholder
  | .FuncRef => .funcrefPlaceholder
  | .V128 i => .decimalNat i

/-- The result loop of `invoke_func`: one rendered line per returned value,
in order. -/
def renderResults (results : List Val) : List Rendered :=
  results.map renderVal

/-- Observable host-side events of one `invoke_func` run, recorded so that
"guest code never runs" is a statement about the trace. -/
inductive Event where
  | coercionRan
  | guestCalled
deriving DecidableEq, Repr

/-- The behaviour of the resolved guest function is external to the host;
`invoke_func` is therefore parameterised by an oracle giving the outcome of
`call_async` on the coerced values. -/
def GuestFunc : Type :=
  List Val → Except InvokeError (List Val)

/-- `invoke_func`: coerce the argument tokens against the declared
parameter list, then (only on success) drive `call_async` and render each
result, returning the rendered lines together with the event trace. -/
def invoke_func (guest : GuestFunc) (params : List ValType)
    (args : List String) : Except InvokeError (List Rendered) × List Event :=
  match coerceArgs params args with
  | .error e => (.error e, [.coercionRan])
  | .ok values =>
    match guest values with
    | .error e => (.error e, [.coercionRan, .guestCalled])
    | .ok results => (.ok (renderResults results), [.coercionRan, .guestCalled])

/-- An exported function of the instantiated module: its declared parameter
kinds and its (oracle) behaviour. -/
structure ExportedFunc where
  params : List ValType
  behave : GuestFunc

/-- Outcome of `main` after instantiation: a Rust `panic!` (process abort
with a diagnostic), a normal `Err` return, or completion with the printed
lines. -/
inductive MainOutcome where
  | panicked (msg : String)
  | errored (e : InvokeError)
  | completed (lines : List Rendered)

/-- The post-instantiation part of `main`: look up the named export with
`get_func` (first match by name) and on absence `panic!("cannot find
function {}", method)`; otherwise run `invoke_func`.  Returns the outcome
and the event trace. -/
def mainRun (exports : List (String × ExportedFunc)) (method : String)
    (args : List String) : MainOutcome × List Event :=
  match exports.lookup method with
  | none => (.panicked ("cannot find function " ++ method), [])
  | some f =>
    match invoke_func f.behave f.params args with
    | (.error e, tr) => (.errored e, tr)
    | (.ok lines, tr) => (.completed lines, tr)

/-- The setup steps of `create_instance`, in source order.  `configEngine`
covers the infallible `Config`/`Engine`/`Linker` construction, `buildEnv`
the fallible `envs(&vars)?` of the WASI context builder, `addFuel` the
`store.add_fuel(10000)?`, `setYield` the `out_of_fuel_async_yield` call,
`wasiLink` the `wasmtime_wasi::tokio::add_to_linker`, `httpNew` the
`HttpCtx::new(...).await?`, `httpLink` the `http.add_to_linker`,
`compileModule` the `Module::from_file`, and `instantiate` the
`linker.instantiate`. -/
inductive CreateStep where
  | configEngine
  | buildEnv
  | addFuel
  | setYield
  | wasiLink
  | httpNew
  | httpLink
  | compileModule
  | instantiate
deriving DecidableEq, Repr

/-- A setup error, tagged with the step it arose from and an opaque code. -/
structure CreateError where
  step : CreateStep
  code : Nat
deriving DecidableEq, Repr

/-- Oracles for the fallible steps of `create_instance`: each records
whether the corresponding external operation succeeds in this run. -/
structure CreateOracles where
  buildEnv : Except CreateError Unit
  addFuel : Except CreateError Unit
  wasiLink : Except CreateError Unit
  httpNew : Except CreateError Unit
  httpLink : Except CreateError Unit
  compileModule : Except CreateError Unit
  instantiate : Except CreateError Unit

/-- Run a list of named fallible steps in order, `?`-propagating the first
error; the trace records every step that was actually executed (including
the failing one). -/
def runSteps : List (CreateStep × Except CreateError Unit) →
    Except CreateError Unit × List CreateStep
  | [] => (.ok (), [])
  | (name, act) :: rest =>
    match act with
    | .error e => (.error e, [name])
    | .ok () =>
      match runSteps rest with
      | (r, tr) => (r, name :: tr)

/-- `create_instance`: the setup sequence in the order the source performs
it.  Every `?` in the source is a potential early return; a failure at any
step prevents every later step from running. -/
def create_instance (o : CreateOracles) :
    Except CreateError Unit × List CreateStep :=
  runSteps
    [(.configEngine, .ok ()), (.buildEnv, o.buildEnv), (.addFuel, o.addFuel),
     (.setYield, .ok ()), (.wasiLink, o.wasiLink), (.httpNew, o.httpNew),
     (.httpLink, o.httpLink), (.compileModule, o.compileModule),
     (.instantiate, o.instantiate)]

/-- Split a character list at the first occurrence of `sep`: `some (before,
after)` when `sep` occurs, `none` otherwise.  This is Rust's
`s.splitn(2, sep)` producing two pieces (versus one when `sep` is absent). -/
def splitFirst (sep : Char) : List Char → Option (List Char × List Char)
  | [] => none
  | c :: cs =>
    if c = sep then some ([], cs)
    else
      match splitFirst sep cs with
      | none => none
      | some (k, v) => some (c :: k, v)

/-- `parse_env_var`: `splitn(2, '=')`; exactly two pieces are required
(`bail!("must be of the form \x60key=value\x60")` otherwise), and the two
pieces become the name and the value. -/
def parse_env_var (s : String) : Except String (String × String) :=
  match splitFirst '=' s.data with
  | none => .error "must be of the form `key=value`"
  | some (k, v) => .ok (String.mk k, String.mk v)

/-- Modelled from the spec: the allow-list policy of the network capability
(`HttpCtx`, from the external `wasi_experimental_http_wasmtime` crate, not
in this repository's sources).  Absence of an allow-list, or an allow-list
with zero entries, denies every outbound destination; otherwise a
destination is permitted exactly when listed. -/
def hostAllowed (allowedHosts : Option (List String)) (dest : String) : Bool :=
  match allowedHosts with
  | none => false
  | some hosts => hosts.contains dest

/-- Modelled from the spec: a guest invocation that attempts the given
outbound requests completes successfully exactly when every request is
permitted by the allow-list policy; a denied request fails the guest call
and hence the invocation. -/
def invocationSucceeds (allowedHosts : Option (List String))
    (requests : List String) : Bool :=
  requests.all (hostAllowed allowedHosts)

/-- A concrete oracle assignment under which only the `store.add_fuel`
step fails. -/
def fuelFailOracles : CreateOracles where
  buildEnv := .ok ()
  addFuel := .error ⟨.addFuel, 7⟩
  wasiLink := .ok ()
  httpNew := .ok ()
  httpLink := .ok ()
  compileModule := .ok ()
  instantiate := .ok ()

/-! ## Helper lemmas -/

/-- `coerceVal` never produces the `notEnoughArguments` error: that error
arises only from an exhausted argument iterator, not from a single token. -/
theorem coerceVal_ne_notEnough (t : ValType) (s : String) :
    coerceVal t s ≠ Except.error .notEnoughArguments := by
  cases t <;> simp only [coerceVal] <;> (try split) <;> simp

/-- A token accepted by `tokenOk` coerces to some value. -/
theorem coerceVal_ok_of_tokenOk {t : ValType} {s : String}
    (h : tokenOk t s = true) : ∃ v, coerceVal t s = .ok v := by
  unfold tokenOk at h
  split at h
  · exact ⟨_, by assumption⟩
  · exact absurd h (by simp)

/-- When at least as many tokens as parameters are supplied and every token
drawn coerces for its positional kind, the coercion loop succeeds and
produces one value per declared parameter (surplus tokens are never
drawn). -/
theorem coerceArgs_ok_of_le (params : List ValType) (args : List String)
    (hlen : params.length ≤ args.length)
    (hok : ∀ p ∈ params.zip args, tokenOk p.1 p.2 = true) :
    ∃ vals, coerceArgs params args = .ok vals ∧
      vals.length = params.length := by
  induction params generalizing args with
  | nil => exact ⟨[], rfl, rfl⟩
  | cons t ts ih =>
    cases args with
    | nil => simp at hlen
    | cons a rest =>
      have h1 : tokenOk t a = true := hok (t, a) (by simp)
      obtain ⟨v, hv⟩ := coerceVal_ok_of_tokenOk h1
      obtain ⟨vals, hvals, hlen2⟩ := ih rest (by simpa using hlen)
        (fun p hp => hok p (by simp [hp]))
      exact ⟨v :: vals, by simp [coerceArgs, hv, hvals], by simp [hlen2]⟩

/-- With strictly fewer tokens than parameters the coercion loop always
fails (with some error). -/
theorem coerceArgs_error_of_short (params : List ValType) (args : List String)
    (hlen : args.length < params.length) :
    ∃ e, coerceArgs params args = .error e := by
  induction params generalizing args with
  | nil => simp at hlen
  | cons t ts ih =>
    cases args with
    | nil => exact ⟨.notEnoughArguments, rfl⟩
    | cons a rest =>
      cases hv : coerceVal t a with
      | error e => exact ⟨e, by simp [coerceArgs, hv]⟩
      | ok v =>
        obtain ⟨e, he⟩ := ih rest (by simpa using hlen)
        exact ⟨e, by simp [coerceArgs, hv, he]⟩

/-- With strictly fewer tokens than parameters, if every supplied token
coerces for its positional kind then the loop's failure is precisely the
`notEnoughArguments` error. -/
theorem coerceArgs_notEnough_of_short (params : List ValType)
    (args : List String) (hlen : args.length < params.length)
    (hok : ∀ p ∈ params.zip args, tokenOk p.1 p.2 = true) :
    coerceArgs params args = .error .notEnoughArguments := by
  induction params generalizing args with
  | nil => simp at hlen
  | cons t ts ih =>
    cases args with
    | nil => rfl
    | cons a rest =>
      have h1 : tokenOk t a = true := hok (t, a) (by simp)
      obtain ⟨v, hv⟩ := coerceVal_ok_of_tokenOk h1
      have h2 := ih rest (by simpa using hlen) (fun p hp => hok p (by simp [hp]))
      simp [coerceArgs, hv, h2]

/-- Conversely, the `notEnoughArguments` error can only arise from an
argument list strictly shorter than the parameter list. -/
theorem short_of_coerceArgs_notEnough (params : List ValType)
    (args : List String)
    (h : coerceArgs params args = .error .notEnoughArguments) :
    args.length < params.length := by
  induction params generalizing args with
  | nil => simp [coerceArgs] at h
  | cons t ts ih =>
    cases args with
    | nil => simp
    | cons a rest =>
      simp only [coerceArgs] at h
      cases hv : coerceVal t a with
      | error e =>
        rw [hv] at h
        simp only [Except.error.injEq] at h
        exact absurd (hv.trans (by rw [h])) (coerceVal_ne_notEnough t a)
      | ok v =>
        rw [hv] at h
        cases hr : coerceArgs ts rest with
        | error e2 =>
          rw [hr] at h
          simp only [Except.error.injEq] at h
          have := ih rest (hr.trans (by rw [h]))
          simpa using this
        | ok vs => rw [hr] at h; cases h

/-- A key absent from an association list looks up to `none` (first
component is the key, as in `Instance::get_func`'s name lookup). -/
theorem lookup_eq_none_of_not_mem (l : List (String × ExportedFunc))
    (m : String) (h : m ∉ l.map Prod.fst) : l.lookup m = none := by
  induction l with
  | nil => rfl
  | cons p rest ih =>
    obtain ⟨k, f⟩ := p
    simp only [List.map_cons, List.mem_cons] at h
    push_neg at h
    simp [List.lookup, beq_false_of_ne h.1, ih h.2]

/-- `splitFirst` returns `none` exactly when the separator is absent. -/
theorem splitFirst_eq_none_iff (sep : Char) (cs : List Char) :
    splitFirst sep cs = none ↔ sep ∉ cs := by
  induction cs with
  | nil => simp [splitFirst]
  | cons c cs ih =>
    by_cases hc : c = sep
    · subst hc
      simp [splitFirst]
    · rw [splitFirst, if_neg hc]
      cases h : splitFirst sep cs with
      | none =>
        simp only [h]
        simp [List.mem_cons, ih.mp h, Ne.symm hc]
      | some p =>
        obtain ⟨k, v⟩ := p
        simp only [h]
        have : sep ∈ cs := by
          by_contra hmem
          rw [ih.mpr hmem] at h
          cases h
        simp [List.mem_cons, this]

/-- A successful `splitFirst` is the split at the *first* occurrence of the
separator: the input is recovered by re-inserting the separator, and the
left piece is separator-free. -/
theorem splitFirst_some_spec (sep : Char) (cs k v : List Char)
    (h : splitFirst sep cs = some (k, v)) :
    cs = k ++ sep :: v ∧ sep ∉ k := by
  induction cs generalizing k v with
  | nil => cases h
  | cons c cs ih =>
    by_cases hc : c = sep
    · subst hc
      rw [splitFirst, if_pos rfl] at h
      simp only [Option.some.injEq, Prod.mk.injEq] at h
      obtain ⟨hk, hv⟩ := h
      subst hk
      subst hv
      simp
    · rw [splitFirst, if_neg hc] at h
      cases h2 : splitFirst sep cs with
      | none => rw [h2] at h; cases h
      | some p =>
        obtain ⟨k2, v2⟩ := p
        rw [h2] at h
        simp only [Option.some.injEq, Prod.mk.injEq] at h
        obtain ⟨hk, hv⟩ := h
        subst hk
        subst hv
        obtain ⟨hcs, hknot⟩ := ih k2 v2 h2
        refine ⟨by simp [hcs], ?_⟩
        simp [List.mem_cons, hknot, Ne.symm hc]

/-! ## Claims -/

/-- C1 (counterexample): the claim "coercion succeeds only when the number
of tokens equals the declared parameter count" is false: for a function
with zero parameters invoked with one token, coercion succeeds even though
the lengths differ — surplus tokens are never drawn from the iterator. -/
theorem c1_counterexample :
    coerceArgs [] ["5"] = .ok []
    ∧ ["5"].length ≠ ([] : List ValType).length :=
  ⟨rfl, by decide⟩

/-- C1 (amended): coercion fails with `ArgumentCountMismatch` only when
strictly fewer tokens than parameters are supplied; with at least as many
tokens as parameters (every drawn token coercing for its kind), coercion
succeeds and yields one value per parameter, silently ignoring surplus
tokens. -/
theorem c1_count_mismatch_only_when_short (params : List ValType)
    (args : List String) :
    (coerceArgs params args = .error .notEnoughArguments →
      args.length < params.length)
    ∧ (params.length ≤ args.length →
        (∀ p ∈ params.zip args, tokenOk p.1 p.2 = true) →
        ∃ vals, coerceArgs params args = .ok vals ∧
          vals.length = params.length) :=
  ⟨short_of_coerceArgs_notEnough params args,
    fun hlen hok => coerceArgs_ok_of_le params args hlen hok⟩

/-- C1 (witness): one `I32` parameter, two tokens — coercion succeeds with
one value, the second token ignored. -/
theorem c1_count_mismatch_witness :
    [ValType.I32].length ≤ ["7", "8"].length
    ∧ (∃ vals, coerceArgs [ValType.I32] ["7", "8"] = .ok vals ∧
        vals.length = [ValType.I32].length) :=
  ⟨by decide,
    (c1_count_mismatch_only_when_short [ValType.I32] ["7", "8"]).2
      (by decide) (by decide)⟩

/-- C2 (counterexample): the claim "every strictly shorter argument list
fails with `ArgumentCountMismatch`" is false: with parameters `(i32, i64)`
and the single unparseable token `"x"`, `invoke_func` fails with the parse
error for `"x"`, not with the count-mismatch error. -/
theorem c2_counterexample :
    invoke_func (fun _ => .ok []) [ValType.I32, ValType.I64] ["x"]
      = (.error (.argumentParse "x"), [.coercionRan])
    ∧ InvokeError.argumentParse "x" ≠ InvokeError.notEnoughArguments
    ∧ ["x"].length < [ValType.I32, ValType.I64].length :=
  ⟨rfl, by simp, by decide⟩

/-- C2 (amended): for every argument list strictly shorter than the
parameter list, `invoke_func` fails before `call_async` — the guest is
never called — and the failure is the `ArgumentCountMismatch` error
(`"not enough arguments for invocation"`) whenever every supplied token
coerces for its positional kind. -/
theorem c2_short_args_fail_before_guest (guest : GuestFunc)
    (params : List ValType) (args : List String)
    (hlen : args.length < params.length) :
    Event.guestCalled ∉ (invoke_func guest params args).2
    ∧ ((∀ p ∈ params.zip args, tokenOk p.1 p.2 = true) →
        (invoke_func guest params args).1 = .error .notEnoughArguments) := by
  obtain ⟨e, he⟩ := coerceArgs_error_of_short params args hlen
  constructor
  · simp [invoke_func, he]
  · intro hok
    have h2 := coerceArgs_notEnough_of_short params args hlen hok
    simp [invoke_func, h2]

/-- C2 (witness): `(i32, i64)` invoked with `["5"]`: the guest is never
called and the result is the `ArgumentCountMismatch` error. -/
theorem c2_short_args_witness :
    ["5"].length < [ValType.I32, ValType.I64].length
    ∧ Event.guestCalled ∉
        (invoke_func (fun _ => .ok []) [ValType.I32, ValType.I64] ["5"]).2
    ∧ (invoke_func (fun _ => .ok []) [ValType.I32, ValType.I64] ["5"]).1
        = .error .notEnoughArguments :=
  ⟨by decide,
    (c2_short_args_fail_before_guest (fun _ => .ok [])
      [ValType.I32, ValType.I64] ["5"] (by decide)).1,
    (c2_short_args_fail_before_guest (fun _ => .ok [])
      [ValType.I32, ValType.I64] ["5"] (by decide)).2 (by decide)⟩

/-- C3: when the argument list has exactly the declared length and every
token coerces for its positional kind, coercion succeeds with one value per
parameter; it preserves numeric identity — parsing `"42"` for an `i32`
parameter yields the value `42`, and a float result's printed line is
exactly the IEEE value denoted by its stored bit pattern. -/
theorem c3_coercion_preserves_identity (params : List ValType)
    (args : List String) (hlen : args.length = params.length)
    (hok : ∀ p ∈ params.zip args, tokenOk p.1 p.2 = true) :
    (∃ vals, coerceArgs params args = .ok vals ∧
      vals.length = params.length)
    ∧ coerceVal .I32 "42" = .ok (.I32 42)
    ∧ (∀ b, renderVal (.F32 b) = .ieeeFloat (f32_from_bits b))
    ∧ (∀ b, renderVal (.F64 b) = .ieeeFloat (f64_from_bits b)) :=
  ⟨coerceArgs_ok_of_le params args (le_of_eq hlen.symm) hok,
    rfl, fun _ => rfl, fun _ => rfl⟩

/-- C3 (witness): a single `i32` parameter and the token `"42"`. -/
theorem c3_coercion_witness :
    (∃ vals, coerceArgs [ValType.I32] ["42"] = .ok vals ∧
      vals.length = [ValType.I32].length)
    ∧ coerceVal .I32 "42" = .ok (.I32 42)
    ∧ (∀ b, renderVal (.F32 b) = .ieeeFloat (f32_from_bits b))
    ∧ (∀ b, renderVal (.F64 b) = .ieeeFloat (f64_from_bits b)) :=
  c3_coercion_preserves_identity [ValType.I32] ["42"] rfl (by decide)

/-- C4: with no allow-list or an empty allow-list, any invocation whose
guest attempts at least one outbound request does not complete
successfully; with an allow-list containing every destination the guest
contacts, it completes without error.  (The allow-list policy lives in the
external `HttpCtx` crate and is modelled from the spec.) -/
theorem c4_allowlist_policy (requests : List String) (hosts : List String)
    (hne : requests ≠ []) (hcover : ∀ r ∈ requests, r ∈ hosts) :
    invocationSucceeds none requests = false
    ∧ invocationSucceeds (some []) requests = false
    ∧ invocationSucceeds (some hosts) requests = true := by
  refine ⟨?_, ?_, ?_⟩
  · cases requests with
    | nil => exact absurd rfl hne
    | cons r rest => simp [invocationSucceeds, hostAllowed]
  · cases requests with
    | nil => exact absurd rfl hne
    | cons r rest => simp [invocationSucceeds, hostAllowed]
  · simp only [invocationSucceeds, List.all_eq_true]
    intro r hr
    simpa [hostAllowed] using List.elem_eq_true_of_mem (hcover r hr)

/-- C4 (witness): a guest contacting `https://postman-echo.com`. -/
theorem c4_allowlist_witness :
    (["https://postman-echo.com"] : List String) ≠ []
    ∧ invocationSucceeds none ["https://postman-echo.com"] = false
    ∧ invocationSucceeds (some []) ["https://postman-echo.com"] = false
    ∧ invocationSucceeds (some ["https://postman-echo.com"])
        ["https://postman-echo.com"] = true := by
  refine ⟨by simp, ?_⟩
  have h := c4_allowlist_policy ["https://postman-echo.com"]
    ["https://postman-echo.com"] (by simp) (by simp)
  exact h

/-- C5: a function name absent from the module's exports makes `main`
abort with the `panic!` diagnostic `cannot find function <name>`, with an
empty event trace: no argument is coerced and no guest code runs. -/
theorem c5_missing_export_panics (exports : List (String × ExportedFunc))
    (method : String) (args : List String)
    (h : method ∉ exports.map Prod.fst) :
    mainRun exports method args
      = (.panicked ("cannot find function " ++ method), []) := by
  unfold mainRun
  rw [lookup_eq_none_of_not_mem exports method h]

/-- C5 (witness): looking up `run` in a module with no exports. -/
theorem c5_missing_export_witness :
    "run" ∉ ([] : List (String × ExportedFunc)).map Prod.fst
    ∧ mainRun [] "run" [] = (.panicked "cannot find function run", []) :=
  ⟨by simp, c5_missing_export_panics [] "run" [] (by simp)⟩

/-- C6: result rendering emits one line per returned value, in order;
`I32`/`I64` results print as decimal integers, `F32`/`F64` results print
the IEEE value obtained by reinterpreting the stored bit pattern
(`f32::from_bits`/`f64::from_bits`), and reference results print fixed
placeholder tokens without dereferencing. -/
theorem c6_result_rendering (results : List Val) :
    (renderResults results).length = results.length
    ∧ (∀ i : Nat, (renderResults results)[i]? = Option.map renderVal results[i]?)
    ∧ (∀ n, renderVal (.I32 n) = .decimalInt n)
    ∧ (∀ n, renderVal (.I64 n) = .decimalInt n)
    ∧ (∀ b, renderVal (.F32 b) = .ieeeFloat (f32_from_bits b))
    ∧ (∀ b, renderVal (.F64 b) = .ieeeFloat (f64_from_bits b))
    ∧ renderVal .ExternRef = .externrefPlaceholder
    ∧ renderVal .FuncRef = .funcrefPlaceholder := by
  refine ⟨by simp [renderResults], fun i => ?_, fun _ => rfl, fun _ => rfl,
    fun _ => rfl, fun _ => rfl, rfl, rfl⟩
  simp [renderResults]

/-- C7: every parameter kind outside the four numeric kinds is rejected
with the `unsupported argument type` error, whatever the token. -/
theorem c7_unsupported_parameter (t : ValType) (s : String)
    (h : t ≠ .I32 ∧ t ≠ .I64 ∧ t ≠ .F32 ∧ t ≠ .F64) :
    coerceVal t s = .error (.unsupportedParameterType t) := by
  cases t with
  | I32 => exact absurd rfl h.1
  | I64 => exact absurd rfl h.2.1
  | F32 => exact absurd rfl h.2.2.1
  | F64 => exact absurd rfl h.2.2.2
  | V128 => rfl
  | ExternRef => rfl
  | FuncRef => rfl

/-- C7 (witness): an `externref` parameter with the token `"5"`. -/
theorem c7_unsupported_witness :
    (ValType.ExternRef ≠ .I32 ∧ ValType.ExternRef ≠ .I64
      ∧ ValType.ExternRef ≠ .F32 ∧ ValType.ExternRef ≠ .F64)
    ∧ coerceVal .ExternRef "5"
        = .error (.unsupportedParameterType .ExternRef) :=
  ⟨by decide, c7_unsupported_parameter .ExternRef "5" (by decide)⟩

/-- C8: float argument tokens are parsed as unsigned decimal *bit patterns*
(`u32`/`u64`), not as IEEE decimal float syntax: `"1.5"` fails with a parse
error, while `"1069547520"` for an `f32` parameter yields the value whose
bits are `1069547520`, i.e. the IEEE value `1.5`; hence the numeric value
printed (`3/2`) differs from the numeral parsed (`1069547520`), so textual
parse and textual print of floats are not mutually inverse. -/
theorem c8_float_args_are_bit_patterns :
    coerceVal .F32 "1.5" = .error (.argumentParse "1.5")
    ∧ coerceVal .F32 "1069547520" = .ok (.F32 1069547520)
    ∧ f32_from_bits 1069547520 = .finite (3 / 2)
    ∧ (3 / 2 : ℚ) ≠ ((1069547520 : Nat) : ℚ) := by
  refine ⟨rfl, rfl, ?_, by norm_num⟩
  simp only [f32_from_bits]
  norm_num

/-- C9: if the `add_fuel` setup step fails, `create_instance` returns that
error, and the trace shows that neither module compilation nor
instantiation is ever reached — the run aborts before any guest code
could execute. -/
theorem c9_fuel_failure_aborts (o : CreateOracles) (e : CreateError)
    (henv : o.buildEnv = .ok ()) (hfuel : o.addFuel = .error e) :
    (create_instance o).1 = .error e
    ∧ CreateStep.compileModule ∉ (create_instance o).2
    ∧ CreateStep.instantiate ∉ (create_instance o).2 := by
  simp [create_instance, runSteps, henv, hfuel]

/-- C9 (witness): the oracle assignment in which only `add_fuel` fails. -/
theorem c9_fuel_failure_witness :
    fuelFailOracles.buildEnv = .ok ()
    ∧ fuelFailOracles.addFuel = .error ⟨.addFuel, 7⟩
    ∧ (create_instance fuelFailOracles).1 = .error ⟨.addFuel, 7⟩
    ∧ CreateStep.compileModule ∉ (create_instance fuelFailOracles).2
    ∧ CreateStep.instantiate ∉ (create_instance fuelFailOracles).2 :=
  ⟨rfl, rfl,
    (c9_fuel_failure_aborts fuelFailOracles ⟨.addFuel, 7⟩ rfl rfl).1,
    (c9_fuel_failure_aborts fuelFailOracles ⟨.addFuel, 7⟩ rfl rfl).2.1,
    (c9_fuel_failure_aborts fuelFailOracles ⟨.addFuel, 7⟩ rfl rfl).2.2⟩

/-- C10: the environment-variable parser fails with `must be of the form
\x60key=value\x60` exactly when the input contains no `=`; otherwise it
splits at the *first* `=` — so the name is `=`-free (and may be empty)
while the value may contain further `=` characters. -/
theorem c10_parse_env_var_split (s : String) :
    ('=' ∉ s.data → parse_env_var s = .error "must be of the form `key=value`")
    ∧ ('=' ∈ s.data → ∃ k v : String, parse_env_var s = .ok (k, v)
        ∧ s.data = k.data ++ '=' :: v.data ∧ '=' ∉ k.data) := by
  constructor
  · intro hmem
    unfold parse_env_var
    rw [(splitFirst_eq_none_iff '=' s.data).mpr hmem]
  · intro hmem
    cases h : splitFirst '=' s.data with
    | none => exact absurd ((splitFirst_eq_none_iff '=' s.data).mp h) (by simp [hmem])
    | some p =>
      obtain ⟨k, v⟩ := p
      obtain ⟨hcs, hknot⟩ := splitFirst_some_spec '=' s.data k v h
      exact ⟨String.mk k, String.mk v, by unfold parse_env_var; rw [h],
        by simpa using hcs, hknot⟩

/-- C10 (witness): `"a=b=c"` splits into name `"a"` and value `"b=c"`. -/
theorem c10_parse_env_var_witness :
    '=' ∈ "a=b=c".data
    ∧ (∃ k v : String, parse_env_var "a=b=c" = .ok (k, v)
        ∧ "a=b=c".data = k.data ++ '=' :: v.data ∧ '=' ∉ k.data) :=
  ⟨by decide, (c10_parse_env_var_split "a=b=c").2 (by decide)⟩

end WasmtimeHttp
